import Mathlib

/-!
Shallow embedding of the region allocator in `malloc.go` of the
`genez/offheap` repository (package `offheap`).

The repository composes two external capabilities, a filesystem and a
memory-mapping service, into the lifecycle of one `MmapMalloc` region.
Those capabilities are not part of the repository; following the
specification (sections 1 and 6) they are modelled here as explicit
state transformers over a `World` record that tracks the file system,
the open descriptors and the set of active mappings.  Go panics are
modelled by the `Res.panicked` constructor, returned Go errors by
`Except.error` values.  Pointer-receiver methods that could mutate
their receiver return the receiver value after the call, so that
frame properties about the receiver are statable.
-/

set_option autoImplicit false

namespace offheap

/-- Boolean membership in a list, used for descriptor and mapping-id sets. -/
def bmem {α : Type} [BEq α] (x : α) : List α → Bool
  | [] => false
  | y :: l => y == x || bmem x l

/-- Remove every occurrence of an element from a list. -/
def brem {α : Type} [BEq α] (x : α) : List α → List α
  | [] => []
  | y :: l => if y == x then brem x l else y :: brem x l

theorem bmem_brem {α : Type} [BEq α] [LawfulBEq α] (x : α) (l : List α) :
    bmem x (brem x l) = false := by
  induction l with
  | nil => rfl
  | cons y l ih =>
    cases h : y == x with
    | true => simpa [brem, h] using ih
    | false => simp [brem, bmem, h, ih]

/-- Lookup in an association list keyed by file path. -/
def fsLookup : List (String × List Nat) → String → Option (List Nat)
  | [], _ => none
  | (q, d) :: fs, p => if q == p then some d else fsLookup fs p

/-- Set (insert or replace) the content stored under a path. -/
def fsSet : List (String × List Nat) → String → List Nat → List (String × List Nat)
  | [], p, c => [(p, c)]
  | (q, d) :: fs, p, c => if q == p then (p, c) :: fs else (q, d) :: fsSet fs p c

theorem fsLookup_fsSet_self (fs : List (String × List Nat)) (p : String) (c : List Nat) :
    fsLookup (fsSet fs p c) p = some c := by
  induction fs with
  | nil => simp [fsSet, fsLookup]
  | cons e fs ih =>
    obtain ⟨q, d⟩ := e
    cases h : q == p with
    | true => simp [fsSet, fsLookup, h]
    | false => simp [fsSet, fsLookup, h, ih]

theorem fsLookup_fsSet_ne (fs : List (String × List Nat)) (p q : String) (c : List Nat)
    (h : q ≠ p) : fsLookup (fsSet fs p c) q = fsLookup fs q := by
  have hb : (p == q) = false := by
    cases hpq : p == q with
    | true => exact absurd (eq_of_beq hpq).symm h
    | false => rfl
  induction fs with
  | nil => simp [fsSet, fsLookup, hb]
  | cons e fs ih =>
    obtain ⟨r, d⟩ := e
    cases hr : r == p with
    | true =>
      have : r = p := eq_of_beq hr
      subst this
      simp [fsSet, hr, fsLookup, hb]
    | false => simp [fsSet, fsLookup, hr, ih]

/-- A Go `*os.File` handle: a descriptor number together with its path. -/
structure GoFile where
  fd : Int
  fpath : String
  deriving DecidableEq

/--
The observable state of the two external capabilities: the file system
(path to byte content, plus the set of directory paths), the table of
open descriptors, and the set of active memory mappings identified by
an allocation counter.
-/
structure World where
  fs : List (String × List Nat)
  dirs : List String
  openFds : List Int
  nextFd : Int
  active : List Nat
  nextId : Nat
  deriving DecidableEq

/--
A value of type `mmap.MMap` (equivalently the `[]byte` view of the
mapping): an identifier naming the underlying mapping, the mapped
bytes, and the backing path when the mapping is file backed.
The Go zero value (nil slice) is `⟨0, [], none⟩`; id `0` is never issued.
-/
structure Mapping where
  mid : Nat
  bytes : List Nat
  backing : Option String
  deriving DecidableEq

/-- Outcome of a call: a normal return carrying the new world, or a Go panic. -/
inductive Res (α : Type) where
  | ok : α → World → Res α
  | panicked : String → World → Res α
  deriving DecidableEq

/-- The `MmapMalloc` struct of `malloc.go` (`MMap` and `Mem` alias one buffer). -/
structure MmapMalloc where
  Path : String
  File : Option GoFile
  Fd : Int
  FileBytesLen : Int
  BytesAlloc : Int
  MMap : Mapping
  Mem : Mapping
  deriving DecidableEq

/-- The zero value of `mmap.MMap` / `[]byte` (a nil slice). -/
def nilMap : Mapping := ⟨0, [], none⟩

/-- The zero value of the `MmapMalloc` struct, as built by `&MmapMalloc\x7b\x7d`. -/
def zeroRegion : MmapMalloc :=
  { Path := "", File := none, Fd := 0, FileBytesLen := 0, BytesAlloc := 0,
    MMap := nilMap, Mem := nilMap }

/-- Error text of `os.ErrInvalid`, returned by any method of a nil `*os.File`. -/
def errInvalid : String := "invalid argument"

/-- Error text of `os.ErrClosed`, returned by file methods after `Close`. -/
def errClosed : String := "file already closed"

/-- Error returned by `Truncate` for a negative size. -/
def errTruncNeg : String := "truncate: invalid argument"

/-- External filesystem capability (spec section 6): is-directory test. -/
def dirExists (w : World) (p : String) : Bool := bmem p w.dirs

/-- External filesystem capability (spec section 6): file existence test. -/
def fileExists (w : World) (p : String) : Bool := (fsLookup w.fs p).isSome

/-- Byte content of a file resized to `n` bytes: truncated, or zero padded. -/
def truncBytes (c : List Nat) (n : Nat) : List Nat :=
  c.take n ++ List.replicate (n - c.length) 0

/--
External filesystem capability: `(*os.File).Truncate` on a possibly nil
handle.  A nil handle yields `os.ErrInvalid`; a closed descriptor yields
`os.ErrClosed`; a negative size is an invalid argument; otherwise the
file content is resized (cut or zero padded) to `newSize` bytes.
-/
def fileTruncate (f : Option GoFile) (newSize : Int) (w : World) :
    Except String Unit × World :=
  match f with
  | none => (Except.error errInvalid, w)
  | some gf =>
    if bmem gf.fd w.openFds then
      if newSize < 0 then (Except.error errTruncNeg, w)
      else
        match fsLookup w.fs gf.fpath with
        | some c => (Except.ok (), { w with fs := fsSet w.fs gf.fpath (truncBytes c newSize.toNat) })
        | none => (Except.error "no such file or directory", w)
    else (Except.error errClosed, w)

/-- External filesystem capability: `(*os.File).Stat`, reporting the size. -/
def fileStat (f : Option GoFile) (w : World) : Except String Int × World :=
  match f with
  | none => (Except.error errInvalid, w)
  | some gf =>
    if bmem gf.fd w.openFds then
      match fsLookup w.fs gf.fpath with
      | some c => (Except.ok (c.length : Int), w)
      | none => (Except.error "no such file or directory", w)
    else (Except.error errClosed, w)

/-- External filesystem capability: `(*os.File).Close`. -/
def fileClose (gf : GoFile) (w : World) : Except String Unit × World :=
  if bmem gf.fd w.openFds then
    (Except.ok (), { w with openFds := brem gf.fd w.openFds })
  else (Except.error errClosed, w)

/-- External filesystem capability: `os.Create` (file is new, made empty). -/
def fileCreate (p : String) (w : World) : Except String GoFile × World :=
  (Except.ok ⟨w.nextFd, p⟩,
    { w with fs := fsSet w.fs p [], openFds := w.nextFd :: w.openFds,
             nextFd := w.nextFd + 1 })

/-- External filesystem capability: `os.OpenFile` with read-write access. -/
def fileOpenRW (p : String) (w : World) : Except String GoFile × World :=
  if fileExists w p then
    (Except.ok ⟨w.nextFd, p⟩,
      { w with openFds := w.nextFd :: w.openFds, nextFd := w.nextFd + 1 })
  else (Except.error "no such file or directory", w)

/--
External mapping capability (spec sections 1 and 6): anonymous map of
`sz` zeroed bytes, registered as an active mapping.
-/
def mapAnon (sz : Nat) (w : World) : Mapping × World :=
  (⟨w.nextId, List.replicate sz 0, none⟩,
    { w with active := w.nextId :: w.active, nextId := w.nextId + 1 })

/--
External mapping capability: `mmap.Map` over a whole file through a
possibly nil handle.  The mapping covers the full current file content.
-/
def mapFileM (f : Option GoFile) (w : World) : Except String Mapping × World :=
  match f with
  | none => (Except.error errInvalid, w)
  | some gf =>
    if bmem gf.fd w.openFds then
      match fsLookup w.fs gf.fpath with
      | some c =>
        (Except.ok ⟨w.nextId, c, some gf.fpath⟩,
          { w with active := w.nextId :: w.active, nextId := w.nextId + 1 })
      | none => (Except.error "no such file or directory", w)
    else (Except.error "bad file descriptor", w)

/--
External mapping capability: `mmap.MMap.Flush` (a blocking msync).  On
an active file-backed mapping the mapped bytes are written back to the
backing file; flushing a mapping that is no longer active fails.
-/
def mmapFlush (m : Mapping) (w : World) : Except String Unit × World :=
  if bmem m.mid w.active then
    match m.backing with
    | some p => (Except.ok (), { w with fs := fsSet w.fs p m.bytes })
    | none => (Except.ok (), w)
  else (Except.error errInvalid, w)

/--
External mapping capability: `mmap.MMap.Unmap`.  The Go mapping layer
tracks active mappings and unmapping anything not in that table fails
with `EINVAL`.
-/
def mmapUnmap (m : Mapping) (w : World) : Except String Unit × World :=
  if bmem m.mid w.active then
    (Except.ok (), { w with active := brem m.mid w.active })
  else (Except.error errInvalid, w)

/--
Final phase of `Malloc` (`malloc.go` lines 136-156): map the backing
file with read-write protection and assemble the struct; `MMap` and
`Mem` receive the same buffer.  A mapping failure panics.
-/
def mallocFinish (path : String) (file : GoFile) (sz : Int) (w : World) : Res MmapMalloc :=
  match mapFileM (some file) w with
  | (Except.error e, w1) => Res.panicked e w1
  | (Except.ok buf, w1) =>
    Res.ok { Path := path, File := some file, Fd := file.fd, FileBytesLen := sz,
             BytesAlloc := sz, MMap := buf, Mem := buf } w1

/--
`Malloc` (`malloc.go` lines 74-157).  Empty path: anonymous mapping,
negative `numBytes` panics (the Go message reads "numBytes was negative
but path was also empty: don\x27t know how much to allocate!"; it is
paraphrased below without the apostrophe).  Non-empty path: a directory
at the path panics; the file is created if absent, else opened
read-write; `numBytes < 0` inherits the size from `Stat`, otherwise the
file is truncated to `numBytes`; then the file is mapped whole.  The
debug `vprintf` is incidental logging and is omitted (spec section 9).
-/
def Malloc (numBytes : Int) (path : String) (w0 : World) : Res MmapMalloc :=
  if path = "" then
    if numBytes < 0 then
      Res.panicked "numBytes was negative but path was also empty: no way to know how much to allocate!" w0
    else
      let pr := mapAnon numBytes.toNat w0
      Res.ok { Path := path, File := none, Fd := -1, FileBytesLen := 0,
               BytesAlloc := numBytes, MMap := pr.1, Mem := pr.1 } pr.2
  else if dirExists w0 path then
    Res.panicked ("path " ++ path ++ " already exists as a directory, so cannot be used as a memory mapped file.") w0
  else
    match (if fileExists w0 path then fileOpenRW path w0 else fileCreate path w0) with
    | (Except.error e, w1) => Res.panicked e w1
    | (Except.ok file, w1) =>
      if numBytes < 0 then
        match fileStat (some file) w1 with
        | (Except.error e, w2) => Res.panicked e w2
        | (Except.ok sz, w2) => mallocFinish path file sz w2
      else
        match fileTruncate (some file) numBytes w1 with
        | (Except.error e, w2) => Res.panicked e w2
        | (Except.ok _, w2) => mallocFinish path file numBytes w2

/--
`TruncateTo` (`malloc.go` lines 36-44): resize the backing file only.
Panics on a non-file-backed region and on a truncate error.  The first
component is the receiver after the call (never reassigned).
-/
def TruncateTo (mm : MmapMalloc) (newSize : Int) (w : World) : MmapMalloc × Res Unit :=
  match mm.File with
  | none => (mm, Res.panicked "cannot call TruncateTo() on a non-file backed MmapMalloc." w)
  | some _ =>
    match fileTruncate mm.File newSize w with
    | (Except.error e, w1) => (mm, Res.panicked e w1)
    | (Except.ok _, w1) => (mm, Res.ok () w1)

/-- The first step of `Free`: close the handle when file backed, with the
`Close` error discarded (`malloc.go` lines 51-53). -/
def closeIfFile (mm : MmapMalloc) (w : World) : World :=
  match mm.File with
  | some f => (fileClose f w).2
  | none => w

/--
`Free` (`malloc.go` lines 50-58): close the file handle when present
(the `Close` error is discarded), then unmap; an unmap error panics.
The receiver fields are not cleared.
-/
def Free (mm : MmapMalloc) (w : World) : MmapMalloc × Res Unit :=
  let w1 := closeIfFile mm w
  match mmapUnmap mm.MMap w1 with
  | (Except.ok _, w2) => (mm, Res.ok () w2)
  | (Except.error e, w2) => (mm, Res.panicked e w2)

/--
`BlockUntilSync` (`malloc.go` lines 160-162): `mm.MMap.Flush()` with the
returned error discarded, so the call always returns normally.
-/
def BlockUntilSync (mm : MmapMalloc) (w : World) : MmapMalloc × Res Unit :=
  (mm, Res.ok () (mmapFlush mm.MMap w).2)

/--
`BackgroundSync` (`malloc.go` lines 169-171): `mm.MMap.Flush()` with the
returned error discarded, so the call always returns normally.
-/
def BackgroundSync (mm : MmapMalloc) (w : World) : MmapMalloc × Res Unit :=
  (mm, Res.ok () (mmapFlush mm.MMap w).2)

/-- First guard message of `Growmap` (`malloc.go` lines 176-179). -/
def errGrowNotFile : String := "oldmap must be mapping to actual file, so we can grow it"

/-- Second guard message of `Growmap` (`malloc.go` lines 180-182). -/
def errGrowNotLarger : String := "mapping in Growmap must be larger than before"

/--
`Growmap` (`malloc.go` lines 174-214).  Guards: the old map must have a
path and a positive descriptor, and `newSize` must exceed both
`BytesAlloc` and `FileBytesLen`.  It then builds a fresh zero-valued
struct, copies only `Path` and `Fd`, and truncates through
`newmap.File` - which is still the nil zero value, since the handle is
never assigned - then would map the file.  A truncate or map error
panics.  The first component is `oldmap` after the call (never
reassigned by the function).
-/
def Growmap (oldmap : MmapMalloc) (newSize : Int) (w : World) :
    MmapMalloc × Res (Except String MmapMalloc) :=
  if oldmap.Path = "" ∨ oldmap.Fd ≤ 0 then
    (oldmap, Res.ok (Except.error errGrowNotFile) w)
  else if newSize ≤ oldmap.BytesAlloc ∨ newSize ≤ oldmap.FileBytesLen then
    (oldmap, Res.ok (Except.error errGrowNotLarger) w)
  else
    let newmap1 : MmapMalloc := { zeroRegion with Path := oldmap.Path, Fd := oldmap.Fd }
    match fileTruncate newmap1.File newSize w with
    | (Except.error e, w1) => (oldmap, Res.panicked e w1)
    | (Except.ok _, w1) =>
      let newmap2 : MmapMalloc :=
        { newmap1 with FileBytesLen := newSize, BytesAlloc := newSize }
      match mapFileM newmap2.File w1 with
      | (Except.error e, w2) => (oldmap, Res.panicked e w2)
      | (Except.ok buf, w2) =>
        (oldmap, Res.ok (Except.ok { newmap2 with MMap := buf, Mem := buf }) w2)

deriving instance DecidableEq for Except

/-! Concrete sample values used by the witness theorems. -/

/-- An initial world: empty filesystem, no open descriptors, no mappings. -/
def w0c : World := ⟨[], [], [], 3, [], 1⟩

/-- The region returned by `Malloc 4 "" w0c`. -/
def mmAc : MmapMalloc :=
  ⟨"", none, -1, 0, 4, ⟨1, [0, 0, 0, 0], none⟩, ⟨1, [0, 0, 0, 0], none⟩⟩

/-- The world after `Malloc 4 "" w0c`. -/
def w1c : World := ⟨[], [], [], 3, [1], 2⟩

/-- The world after freeing that region. -/
def w2c : World := ⟨[], [], [], 3, [], 2⟩

/-- Content of a sample ten-byte backing file. -/
def bytes10 : List Nat := [1, 2, 3, 4, 5, 6, 7, 8, 9, 10]

/-- A world holding the sample file, not yet opened. -/
def w5c : World := ⟨[("data.bin", bytes10)], [], [], 3, [], 1⟩

/-- The live file-backed region returned by `Malloc (-1) "data.bin" w5c`. -/
def oldc : MmapMalloc :=
  ⟨"data.bin", some ⟨3, "data.bin"⟩, 3, 10, 10,
    ⟨1, bytes10, some "data.bin"⟩, ⟨1, bytes10, some "data.bin"⟩⟩

/-- The world after `Malloc (-1) "data.bin" w5c`. -/
def wfc : World := ⟨[("data.bin", bytes10)], [], [3], 4, [1], 2⟩

/--
Claim C3: for every `sizeBytes ≥ 0`, `Malloc sizeBytes ""` succeeds and
returns a region whose buffer (`Mem`) length equals `sizeBytes` exactly,
with `BytesAlloc` equal to `sizeBytes`.
-/
theorem malloc_anon_buffer_len (n : Int) (w : World) (hn : 0 ≤ n) :
    ∃ mm w1, Malloc n "" w = Res.ok mm w1 ∧
      (mm.Mem.bytes.length : Int) = n ∧ mm.BytesAlloc = n := by
  have hn' : ¬ n < 0 := not_lt.mpr hn
  refine ⟨{ Path := "", File := none, Fd := -1, FileBytesLen := 0, BytesAlloc := n,
            MMap := ⟨w.nextId, List.replicate n.toNat 0, none⟩,
            Mem := ⟨w.nextId, List.replicate n.toNat 0, none⟩ },
          { w with active := w.nextId :: w.active, nextId := w.nextId + 1 }, ?_, ?_, rfl⟩
  · simp [Malloc, hn', mapAnon]
  · simp [Int.toNat_of_nonneg hn]

/-- Witness for `malloc_anon_buffer_len` at `sizeBytes = 4`. -/
theorem malloc_anon_buffer_len_witness :
    (0 : Int) ≤ 4 ∧ ∃ mm w1, Malloc 4 "" w0c = Res.ok mm w1 ∧
      (mm.Mem.bytes.length : Int) = 4 ∧ mm.BytesAlloc = 4 :=
  ⟨by decide, malloc_anon_buffer_len 4 w0c (by decide)⟩

/--
Claim C4: for every negative `sizeBytes`, `Malloc sizeBytes ""` panics
with the configuration message, and the world - filesystem, descriptors
and mappings - is returned exactly as it was, so no mapping is created.
-/
theorem malloc_neg_anon_panics (n : Int) (w : World) (hn : n < 0) :
    Malloc n "" w =
      Res.panicked "numBytes was negative but path was also empty: no way to know how much to allocate!" w := by
  simp [Malloc, hn]

/-- Witness for `malloc_neg_anon_panics` at `sizeBytes = -1`. -/
theorem malloc_neg_anon_panics_witness :
    (-1 : Int) < 0 ∧ Malloc (-1) "" w0c =
      Res.panicked "numBytes was negative but path was also empty: no way to know how much to allocate!" w0c :=
  ⟨by decide, malloc_neg_anon_panics (-1) w0c (by decide)⟩

/--
Claim C9: every region successfully returned by `Malloc` with an empty
path is anonymous-shaped: no file handle, descriptor `-1`, empty path.
-/
theorem malloc_anon_shape (n : Int) (w : World) (mm : MmapMalloc) (w1 : World)
    (h : Malloc n "" w = Res.ok mm w1) :
    mm.File = none ∧ mm.Fd = -1 ∧ mm.Path = "" := by
  by_cases hn : n < 0
  · simp [Malloc, hn] at h
  · simp [Malloc, hn, mapAnon] at h
    obtain ⟨h1, -⟩ := h
    subst h1
    exact ⟨rfl, rfl, rfl⟩

/-- Witness for `malloc_anon_shape` at the sample anonymous allocation. -/
theorem malloc_anon_shape_witness :
    Malloc 4 "" w0c = Res.ok mmAc w1c ∧
      (mmAc.File = none ∧ mmAc.Fd = -1 ∧ mmAc.Path = "") :=
  ⟨by decide, malloc_anon_shape 4 w0c mmAc w1c (by decide)⟩

/--
Claim C5: for an existing regular file of length `M` at `path`,
`Malloc (-1) path` succeeds with `BytesAlloc = FileBytesLen = M`, the
mapped bytes are the file content, and the filesystem is unchanged
(in particular no truncation is performed).
-/
theorem malloc_inherit_size (path : String) (c : List Nat) (w : World)
    (hp : path ≠ "") (hd : dirExists w path = false)
    (hc : fsLookup w.fs path = some c) :
    ∃ mm w1, Malloc (-1) path w = Res.ok mm w1 ∧
      mm.BytesAlloc = (c.length : Int) ∧ mm.FileBytesLen = (c.length : Int) ∧
      mm.Mem.bytes = c ∧ w1.fs = w.fs := by
  have hfe : fileExists w path = true := by simp [fileExists, hc]
  refine ⟨⟨path, some ⟨w.nextFd, path⟩, w.nextFd, (c.length : Int), (c.length : Int),
          ⟨w.nextId, c, some path⟩, ⟨w.nextId, c, some path⟩⟩,
        { w with openFds := w.nextFd :: w.openFds, nextFd := w.nextFd + 1,
                 active := w.nextId :: w.active, nextId := w.nextId + 1 },
        ?_, rfl, rfl, rfl, rfl⟩
  simp [Malloc, hp, hd, hfe, fileOpenRW, fileStat, mallocFinish, mapFileM, bmem, hc]

/-- Witness for `malloc_inherit_size` on the sample ten-byte file. -/
theorem malloc_inherit_size_witness :
    ("data.bin" ≠ "" ∧ dirExists w5c "data.bin" = false ∧
      fsLookup w5c.fs "data.bin" = some bytes10) ∧
    (∃ mm w1, Malloc (-1) "data.bin" w5c = Res.ok mm w1 ∧
      mm.BytesAlloc = (bytes10.length : Int) ∧
      mm.FileBytesLen = (bytes10.length : Int) ∧
      mm.Mem.bytes = bytes10 ∧ w1.fs = w5c.fs) :=
  ⟨⟨by decide, by decide, by decide⟩,
    malloc_inherit_size "data.bin" bytes10 w5c (by decide) (by decide) (by decide)⟩

/--
Claim C7: on a live file-backed region, `TruncateTo` resizes only the
backing file.  The receiver comes back unchanged (so buffer, buffer
length, `BytesAlloc`, `Path` and `Fd` are untouched), the world changes
only in the content stored under the backing path (descriptor table,
mapping table and directories are the same record fields), every other
path keeps its content, and a negative size panics leaving the world
exactly as it was.
-/
theorem truncateTo_resizes_only_file (mm : MmapMalloc) (f : GoFile) (c : List Nat)
    (newSize : Int) (w : World) (hf : mm.File = some f)
    (ho : bmem f.fd w.openFds = true) (hc : fsLookup w.fs f.fpath = some c) :
    (0 ≤ newSize → TruncateTo mm newSize w =
      (mm, Res.ok () { w with fs := fsSet w.fs f.fpath (truncBytes c newSize.toNat) })) ∧
    (∀ q, q ≠ f.fpath →
      fsLookup (fsSet w.fs f.fpath (truncBytes c newSize.toNat)) q = fsLookup w.fs q) ∧
    (newSize < 0 → TruncateTo mm newSize w = (mm, Res.panicked errTruncNeg w)) := by
  refine ⟨?_, ?_, ?_⟩
  · intro hn
    have hn' : ¬ newSize < 0 := not_lt.mpr hn
    simp [TruncateTo, hf, fileTruncate, ho, hn', hc]
  · intro q hq
    exact fsLookup_fsSet_ne _ _ _ _ hq
  · intro hn
    simp [TruncateTo, hf, fileTruncate, ho, hn]

/-- Witness for `truncateTo_resizes_only_file` growing the sample file to 12 bytes. -/
theorem truncateTo_resizes_only_file_witness :
    (oldc.File = some ⟨3, "data.bin"⟩ ∧ bmem (3 : Int) wfc.openFds = true ∧
      fsLookup wfc.fs "data.bin" = some bytes10) ∧
    ((0 ≤ (12 : Int) → TruncateTo oldc 12 wfc =
      (oldc, Res.ok () { wfc with
        fs := fsSet wfc.fs "data.bin" (truncBytes bytes10 (12 : Int).toNat) })) ∧
    (∀ q, q ≠ "data.bin" →
      fsLookup (fsSet wfc.fs "data.bin" (truncBytes bytes10 (12 : Int).toNat)) q =
        fsLookup wfc.fs q) ∧
    ((12 : Int) < 0 → TruncateTo oldc 12 wfc = (oldc, Res.panicked errTruncNeg wfc))) :=
  ⟨⟨by decide, by decide, by decide⟩,
    truncateTo_resizes_only_file oldc ⟨3, "data.bin"⟩ bytes10 12 wfc
      (by decide) (by decide) (by decide)⟩

/--
Claim C6: whenever `newSize` is not strictly greater than both
`BytesAlloc` and `FileBytesLen` of the old region, `Growmap` returns a
configuration error (one of its two guard messages), no region, and
leaves the old region and the world untouched.
-/
theorem growmap_nonincreasing_errors (oldmap : MmapMalloc) (newSize : Int) (w : World)
    (h : newSize ≤ oldmap.BytesAlloc ∨ newSize ≤ oldmap.FileBytesLen) :
    ∃ e, Growmap oldmap newSize w = (oldmap, Res.ok (Except.error e) w) ∧
      (e = errGrowNotFile ∨ e = errGrowNotLarger) := by
  by_cases hg : oldmap.Path = "" ∨ oldmap.Fd ≤ 0
  · exact ⟨errGrowNotFile, by rw [Growmap, if_pos hg], Or.inl rfl⟩
  · exact ⟨errGrowNotLarger, by rw [Growmap, if_neg hg, if_pos h], Or.inr rfl⟩

/-- Witness for `growmap_nonincreasing_errors` at `newSize = 10` on the sample region. -/
theorem growmap_nonincreasing_errors_witness :
    ((10 : Int) ≤ oldc.BytesAlloc ∨ (10 : Int) ≤ oldc.FileBytesLen) ∧
    ∃ e, Growmap oldc 10 wfc = (oldc, Res.ok (Except.error e) wfc) ∧
      (e = errGrowNotFile ∨ e = errGrowNotLarger) :=
  ⟨by decide, growmap_nonincreasing_errors oldc 10 wfc (by decide)⟩

/--
Claim C8: `Growmap` never mutates the old region; in every branch -
both guard errors, the truncate panic, the map panic and the success
return - the old region component of the outcome is exactly the value
passed in, all fields included.
-/
theorem growmap_leaves_oldmap_unchanged (oldmap : MmapMalloc) (newSize : Int) (w : World) :
    (Growmap oldmap newSize w).1 = oldmap := by
  rw [Growmap]
  by_cases hg : oldmap.Path = "" ∨ oldmap.Fd ≤ 0
  · rw [if_pos hg]
  · rw [if_neg hg]
    by_cases h2 : newSize ≤ oldmap.BytesAlloc ∨ newSize ≤ oldmap.FileBytesLen
    · rw [if_pos h2]
    · rw [if_neg h2]
      rfl

/--
Claim C1 (code bug): for every file-backed old region with a positive
descriptor and every `newSize` strictly above both lengths - exactly
the inputs the claim says must succeed - `Growmap` panics with the
`os.ErrInvalid` text and leaves the world (so also the backing file)
untouched: the truncation goes through `newmap.File`, which is still
the nil zero value because the handle is never copied from `oldmap`.
No grow can ever return a region.
-/
theorem growmap_valid_input_panics (oldmap : MmapMalloc) (newSize : Int) (w : World)
    (hp : oldmap.Path ≠ "") (hfd : 0 < oldmap.Fd)
    (ha : oldmap.BytesAlloc < newSize) (hf : oldmap.FileBytesLen < newSize) :
    Growmap oldmap newSize w = (oldmap, Res.panicked errInvalid w) := by
  have hg : ¬ (oldmap.Path = "" ∨ oldmap.Fd ≤ 0) := by
    rintro (h | h)
    · exact hp h
    · exact absurd hfd (not_lt.mpr h)
  have h2 : ¬ (newSize ≤ oldmap.BytesAlloc ∨ newSize ≤ oldmap.FileBytesLen) := by
    rintro (h | h)
    · exact absurd ha (not_lt.mpr h)
    · exact absurd hf (not_lt.mpr h)
  rw [Growmap, if_neg hg, if_neg h2]
  rfl

/-- Witness for `growmap_valid_input_panics`: growing the live sample
region from 10 to 20 bytes panics instead of succeeding. -/
theorem growmap_valid_input_panics_witness :
    (oldc.Path ≠ "" ∧ 0 < oldc.Fd ∧ oldc.BytesAlloc < 20 ∧ oldc.FileBytesLen < 20) ∧
    Growmap oldc 20 wfc = (oldc, Res.panicked errInvalid wfc) :=
  ⟨⟨by decide, by decide, by decide, by decide⟩,
    growmap_valid_input_panics oldc 20 wfc (by decide) (by decide) (by decide) (by decide)⟩

/--
Claim C10: `BlockUntilSync` and `BackgroundSync` are extensionally
equal - both are exactly `mm.MMap.Flush()` with the result discarded,
so they agree on every region and every world.
-/
theorem blockUntilSync_eq_backgroundSync :
    ∀ (mm : MmapMalloc) (w : World), BlockUntilSync mm w = BackgroundSync mm w :=
  fun _ _ => rfl

/--
Counterexample to claim C2 as stated: the sample anonymous region is
allocated and then freed successfully, yet `BlockUntilSync` and
`BackgroundSync` invoked on the freed region return normally - no panic
and no error - because both discard the result of `Flush`.  They
silently succeed instead of failing.
-/
theorem sync_after_free_silent :
    Malloc 4 "" w0c = Res.ok mmAc w1c ∧
    Free mmAc w1c = (mmAc, Res.ok () w2c) ∧
    BlockUntilSync mmAc w2c = (mmAc, Res.ok () w2c) ∧
    BackgroundSync mmAc w2c = (mmAc, Res.ok () w2c) := by decide

/-- `Growmap` can never return a region: every path through it ends in a
guard error or in the panic caused by the never-assigned nil file handle. -/
theorem growmap_never_returns_region (o : MmapMalloc) (n : Int) (w : World)
    (nm : MmapMalloc) (w2 : World) :
    (Growmap o n w).2 ≠ Res.ok (Except.ok nm) w2 := by
  rw [Growmap]
  by_cases hg : o.Path = "" ∨ o.Fd ≤ 0
  · rw [if_pos hg]
    simp
  · rw [if_neg hg]
    by_cases h2 : n ≤ o.BytesAlloc ∨ n ≤ o.FileBytesLen
    · rw [if_pos h2]
      simp
    · rw [if_neg h2]
      simp [fileTruncate, zeroRegion]

/-- After `Free` closed the handle, the descriptor is no longer open. -/
theorem closeIfFile_closes (mm : MmapMalloc) (w : World) (f : GoFile)
    (hf : mm.File = some f) : bmem f.fd (closeIfFile mm w).openFds = false := by
  by_cases hb : bmem f.fd w.openFds
  · simp [closeIfFile, hf, fileClose, hb, bmem_brem]
  · simp [closeIfFile, hf, fileClose, hb]

/-- Closing changes only the descriptor table, never the mapping table. -/
theorem closeIfFile_active (mm : MmapMalloc) (w : World) :
    (closeIfFile mm w).active = w.active := by
  cases hf : mm.File with
  | none => simp [closeIfFile, hf]
  | some f =>
    by_cases hb : bmem f.fd w.openFds
    · simp [closeIfFile, hf, fileClose, hb]
    · simp [closeIfFile, hf, fileClose, hb]

/-- When the handle descriptor is already closed (or there is none), the
close step of `Free` leaves the world untouched. -/
theorem closeIfFile_noop (mm : MmapMalloc) (w : World)
    (h : ∀ f, mm.File = some f → bmem f.fd w.openFds = false) :
    closeIfFile mm w = w := by
  cases hf : mm.File with
  | none => simp [closeIfFile, hf]
  | some f => simp [closeIfFile, hf, fileClose, h f hf]

/--
Claim C2 amended: after a successful `Free`, `TruncateTo`, `Growmap`
and a second `Free` on the same region all fail (they panic or return
an error, never a region), but `BlockUntilSync` and `BackgroundSync`
return normally with no error: both discard the `Flush` failure, so the
caller observes silent success instead of the failure the claim
requires.
-/
theorem ops_after_free (mm : MmapMalloc) (w w1 : World)
    (h : Free mm w = (mm, Res.ok () w1)) :
    (∀ n : Int, ∃ e wp, (TruncateTo mm n w1).2 = Res.panicked e wp) ∧
    (∀ (n : Int) (nm : MmapMalloc) (w2 : World),
        (Growmap mm n w1).2 ≠ Res.ok (Except.ok nm) w2) ∧
    (∃ e, (Free mm w1).2 = Res.panicked e w1) ∧
    BlockUntilSync mm w1 = (mm, Res.ok () w1) ∧
    BackgroundSync mm w1 = (mm, Res.ok () w1) := by
  have key : bmem mm.MMap.mid (closeIfFile mm w).active = true ∧
      w1 = { closeIfFile mm w with active := brem mm.MMap.mid (closeIfFile mm w).active } := by
    by_cases hu : bmem mm.MMap.mid (closeIfFile mm w).active = true
    · refine ⟨hu, ?_⟩
      simp only [Free, mmapUnmap, hu, if_true] at h
      simp at h
      exact h.symm
    · exfalso
      simp only [Free, mmapUnmap, Bool.not_eq_true] at h
      rw [Bool.not_eq_true] at hu
      simp [hu] at h
  obtain ⟨hu, hw1⟩ := key
  have hact : bmem mm.MMap.mid w1.active = false := by
    rw [hw1]
    exact bmem_brem _ _
  have hfds : ∀ f, mm.File = some f → bmem f.fd w1.openFds = false := by
    intro f hf
    rw [hw1]
    exact closeIfFile_closes mm w f hf
  have hclose1 : closeIfFile mm w1 = w1 := closeIfFile_noop mm w1 hfds
  refine ⟨?_, ?_, ?_, ?_, ?_⟩
  · intro n
    cases hf : mm.File with
    | none =>
      refine ⟨"cannot call TruncateTo() on a non-file backed MmapMalloc.", w1, ?_⟩
      simp [TruncateTo, hf]
    | some f =>
      refine ⟨errClosed, w1, ?_⟩
      simp [TruncateTo, hf, fileTruncate, hfds f hf]
  · intro n nm w2
    exact growmap_never_returns_region mm n w1 nm w2
  · refine ⟨errInvalid, ?_⟩
    simp [Free, hclose1, mmapUnmap, hact]
  · simp [BlockUntilSync, mmapFlush, hact]
  · simp [BackgroundSync, mmapFlush, hact]

/-- Witness for `ops_after_free` on the freed sample anonymous region. -/
theorem ops_after_free_witness :
    Free mmAc w1c = (mmAc, Res.ok () w2c) ∧
    ((∀ n : Int, ∃ e wp, (TruncateTo mmAc n w2c).2 = Res.panicked e wp) ∧
     (∀ (n : Int) (nm : MmapMalloc) (w2 : World),
         (Growmap mmAc n w2c).2 ≠ Res.ok (Except.ok nm) w2) ∧
     (∃ e, (Free mmAc w2c).2 = Res.panicked e w2c) ∧
     BlockUntilSync mmAc w2c = (mmAc, Res.ok () w2c) ∧
     BackgroundSync mmAc w2c = (mmAc, Res.ok () w2c)) :=
  ⟨by decide, ops_after_free mmAc w1c w2c (by decide)⟩

end offheap
